import Mathlib

/-!
Verification development for `microsynteny.py` (genomeGTFtools).

The Python source is shallowly embedded: the mutable loops of
`synteny_walk`, `parse_gtf` and `parse_tabular_blast` become Lean
structural recursions with explicit state records.  Python dictionaries
(which preserve insertion order and overwrite values in place) are
modelled as association lists with insertion-order-preserving update
operations.  Machine integers and genomic coordinates are modelled as
`Int`; blast bitscores and e-values, which the source only compares,
are modelled as `Int` as well (none of the properties under study
depends on float-specific behaviour).  Gene-identifier extraction from
the GTF attribute column (a regular-expression search in the source) is
abstracted as a `geneid` field of the row record.  Writes to the
diagnostic stream (stderr) are not modelled; the data they report
(`splitgenes`, `blocklengths`, `scaffoldgenecounts`, `basetotal`) is
kept in the state faithfully.  Dictionary lookups that the source
performs with `d[k]` on keys it assumes present (`refdict`,
`transdict`) are modelled with a default value, as the claims under
study never exercise the missing-key path.
-/

namespace Microsynteny

/-- `querygene` namedtuple of the source: `(start, end, strand)`.
`endp` models the source field `end` (a Lean keyword). -/
structure Querygene where
  start : Int
  endp : Int
  strand : String
deriving DecidableEq, Repr

/-- `refgene` namedtuple of the source: `(scaffold, start, end, strand)`. -/
structure Refgene where
  scaffold : String
  start : Int
  endp : Int
  strand : String
deriving DecidableEq, Repr

/-- Association-list lookup with decidable equality, the model of
Python `d[k]` / `d.get(k)`. -/
def alookup {β : Type} : List (String × β) → String → Option β
  | [], _ => none
  | (k, v) :: t, g => if g = k then some v else alookup t g

/-- Python `d[k] = v`: overwrite in place if the key exists (its
position is kept, as in an insertion-ordered dict), append otherwise. -/
def assocSet {β : Type} : List (String × β) → String → β → List (String × β)
  | [], k, v => [(k, v)]
  | (k', v') :: t, k, v => if k' = k then (k', v) :: t else (k', v') :: assocSet t k v

/-- Python `defaultdict(list); d[k].append(x)`. -/
def assocAppend {β : Type} : List (String × List β) → String → β → List (String × List β)
  | [], k, x => [(k, [x])]
  | (k', v) :: t, k, x => if k' = k then (k', v ++ [x]) :: t else (k', v) :: assocAppend t k x

/-- Python `defaultdict(int); d[k] += 1`. -/
def assocBump : List (Nat × Nat) → Nat → List (Nat × Nat)
  | [], k => [(k, 1)]
  | (k', v) :: t, k => if k' = k then (k', v + 1) :: t else (k', v) :: assocBump t k

/-- Python `defaultdict(int); d[k] += 1` for string keys. -/
def assocBumpStr : List (String × Nat) → String → List (String × Nat)
  | [], k => [(k, 1)]
  | (k', v) :: t, k => if k' = k then (k', v + 1) :: t else (k', v) :: assocBumpStr t k

/-- Stable insertion of a gene into a list sorted by ascending start
coordinate; equal keys keep their original relative order, matching
Python's stable `sorted(..., key=lambda x: x[1].start)`. -/
def insertByStart (x : String × Querygene) : List (String × Querygene) → List (String × Querygene)
  | [] => [x]
  | y :: ys => if x.2.start < y.2.start then x :: y :: ys else y :: insertByStart x ys

/-- `sorted(transdict.items(), key=lambda x: x[1].start)` (line 198). -/
def sortGenesByStart (l : List (String × Querygene)) : List (String × Querygene) :=
  l.foldl (fun acc x => insertByStart x acc) []

/-- Stable insertion for descending score order. -/
def insertByScoreDesc (x : String × Int) : List (String × Int) → List (String × Int)
  | [] => [x]
  | y :: ys => if x.2 > y.2 then x :: y :: ys else y :: insertByScoreDesc x ys

/-- `sorted(d.items(), key=lambda x: x[1], reverse=True)` (lines 221, 258). -/
def sortByScoreDesc (l : List (String × Int)) : List (String × Int) :=
  l.foldl (fun acc x => insertByScoreDesc x acc) []

/-- Stable insertion for ascending scaffold-name order. -/
def insertByName {β : Type} (x : String × β) : List (String × β) → List (String × β)
  | [] => [x]
  | y :: ys => if x.1 < y.1 then x :: y :: ys else y :: insertByName x ys

/-- `sorted(querydict.items(), key=lambda x: x[0])` (line 197). -/
def sortByName {β : Type} (l : List (String × β)) : List (String × β) :=
  l.foldl (fun acc x => insertByName x acc) []

/-- The query gene index: scaffold name to (gene name, coordinates),
in insertion order, i.e. `parse_gtf`'s dict of dicts. -/
abbrev Querydict := List (String × List (String × Querygene))

/-- The blast candidate map: query gene to (reference gene, bitscore). -/
abbrev Blastdict := List (String × List (String × Int))

/-- The reference gene index: reference gene name to coordinates. -/
abbrev Refdict := List (String × Refgene)

/-- `refdict[name]`: the source assumes the key is present (a missing
key would raise `KeyError`); a junk default stands in for that path. -/
def refget (rd : Refdict) (name : String) : Refgene :=
  (alookup rd name).getD ⟨"", 0, 0, ""⟩

/-- `transdict[name]`: same present-key assumption as `refget`. -/
def qget (td : List (String × Querygene)) (name : String) : Querygene :=
  (alookup td name).getD ⟨0, 0, ""⟩

/-- One finalized synteny block as emitted by the output code
(lines 314-327): the query scaffold, the reference scaffold of the
chain, the block number, and the ordered (query gene, reference gene)
pairs of `syntenylist`. -/
structure Block where
  scaffold : String
  refscaffold : String
  blocknum : Int
  pairs : List (String × String)
deriving DecidableEq, Repr

/-- The run-global mutable state of `synteny_walk` (lines 184-194):
`blocknum`, `blocklengths`, `scaffoldgenecounts`, `splitgenes`,
`basetotal`, `lastmatch`, plus the finalized blocks written to the
output stream. -/
structure WalkGlobal where
  blocknum : Int
  blocklengths : List (Nat × Nat)
  scaffoldgenecounts : List (Nat × Nat)
  splitgenes : Nat
  basetotal : Int
  lastmatch : String
  blocks : List Block
deriving DecidableEq, Repr

/-- Initial values of the run-global state (lines 184-194). -/
def initGlobal : WalkGlobal :=
  { blocknum := 1, blocklengths := [], scaffoldgenecounts := [], splitgenes := 0,
    basetotal := 0, lastmatch := "", blocks := [] }

/-- Result of scanning the candidate list of one walked gene
(lines 258-286): the walk-step budget, the chain's reference bounds
`subjectpos`, the per-scaffold consumed list `accounted_query_genes`
and the chain `syntenylist` after the scan. -/
structure ScanResult where
  walksteps : Int
  subjectpos : Int × Int
  accounted : List String
  syntenylist : List (String × String)
deriving DecidableEq, Repr

/-- Lines 258-286: iterate over the walked gene's blast candidates in
descending score order.  A candidate equal to the anchor's match
`blast_refgene` marks the gene consumed and scanning continues
(lines 259-261); a candidate on the chain's reference scaffold within
the bidirectional distance bound is accepted — budget reset, reference
bounds updated, gene consumed, pair appended — and scanning stops
(lines 265-281); other candidates are skipped.  If the loop finishes
without acceptance, the `for`-`else` decrements the budget (line 286). -/
def scanCandidates (rd : Refdict) (blast_refgene refscaffold : String)
    (subjectpos : Int × Int) (max_distance max_span walksteps : Int)
    (accounted : List String) (syntenylist : List (String × String))
    (next_gene : String) : List (String × Int) → ScanResult
  | [] => ⟨walksteps - 1, subjectpos, accounted, syntenylist⟩
  | (next_match, _bitscoreN) :: rest =>
    if next_match = blast_refgene then
      scanCandidates rd blast_refgene refscaffold subjectpos max_distance max_span walksteps
        (accounted ++ [next_gene]) syntenylist next_gene rest
    else
      -- source locals: next_ref_scaf / next_ref_pos = refget rd next_match,
      -- dist_to_next_ref = start - subjectpos[1], dist_to_prev_ref = subjectpos[0] - end
      if (refget rd next_match).scaffold = refscaffold then
        if (refget rd next_match).start - subjectpos.2 > max_distance ∨
            subjectpos.1 - (refget rd next_match).endp > max_distance then
          scanCandidates rd blast_refgene refscaffold subjectpos max_distance max_span walksteps
            accounted syntenylist next_gene rest
        else
          ⟨max_span, ((refget rd next_match).start, (refget rd next_match).endp),
            accounted ++ [next_gene], syntenylist ++ [(next_gene, next_match)]⟩
      else
        scanCandidates rd blast_refgene refscaffold subjectpos max_distance max_span walksteps
          accounted syntenylist next_gene rest

/-- The chain state mutated by the gene walk (lines 241-290):
`walksteps`, `querypos`, `subjectpos`, `accounted_query_genes`,
`syntenylist`. -/
structure WalkAnchorState where
  walksteps : Int
  querypos : Int × Int
  subjectpos : Int × Int
  accounted : List String
  syntenylist : List (String × String)
deriving DecidableEq, Repr

/-- Lines 241-290: walk forward over the remaining genes of the query
scaffold.  A gene is visited only while `walksteps > 0`; a query gap
above `max_distance` ends the walk outright; a gene with no blast
matches costs one budget step; otherwise its candidates are scanned
with `scanCandidates`. -/
def walkGenes (bd : Blastdict) (rd : Refdict) (refscaffold blast_refgene : String)
    (max_distance max_span : Int) : List (String × Querygene) → WalkAnchorState → WalkAnchorState
  | [], s => s
  | (next_gene, next_gene_info) :: rest, s =>
    if s.walksteps > 0 then
      if next_gene_info.start - s.querypos.2 > max_distance then s
      else
        let qp := (next_gene_info.start, next_gene_info.endp)
        match alookup bd next_gene with
        | none =>
          walkGenes bd rd refscaffold blast_refgene max_distance max_span rest
            { s with walksteps := s.walksteps - 1, querypos := qp }
        | some next_match_dict =>
          let r := scanCandidates rd blast_refgene refscaffold s.subjectpos max_distance
            max_span s.walksteps s.accounted s.syntenylist next_gene
            (sortByScoreDesc next_match_dict)
          walkGenes bd rd refscaffold blast_refgene max_distance max_span rest
            ⟨r.walksteps, qp, r.subjectpos, r.accounted, r.syntenylist⟩
    else s

/-- State threaded through the candidate loop of one anchor gene:
the run-global state, the per-scaffold consumed list, and the
per-anchor `walksteps` / `querypos` (set once per anchor, lines
209/213, and not reset between candidates). -/
structure CandState where
  g : WalkGlobal
  accounted : List String
  walksteps : Int
  querypos : Int × Int
deriving DecidableEq, Repr

/-- One iteration of the candidate loop of an anchor (lines 221-335):
the split-gene diagnostic (222-223), the consumed-anchor guard
(226-229, which `continue`s without touching `lastmatch`), the fresh
chain (231), the walk when at least one gene remains (233-290), and
finalization — kept as a `Block` when `len ≥ min_block` (292-328),
silently dropped otherwise (329-331) — followed by the `lastmatch`
update (335). -/
def tryCandidate (rd : Refdict) (bd : Blastdict) (td : List (String × Querygene))
    (min_block max_span max_distance : Int) (scaffold startingtrans : String)
    (rest : List (String × Querygene)) (s : CandState)
    (blast_refgene : String) (_bitscore1 : Int) : CandState :=
  let splitgenes := if blast_refgene = s.g.lastmatch then s.g.splitgenes + 1 else s.g.splitgenes
  if startingtrans ∈ s.accounted then
    { s with g := { s.g with splitgenes := splitgenes } }
  else
    if rest ≠ [] then
      let rg := refget rd blast_refgene
      let w := walkGenes bd rd rg.scaffold blast_refgene max_distance max_span rest
        ⟨s.walksteps, s.querypos, (rg.start, rg.endp), s.accounted,
          [(startingtrans, blast_refgene)]⟩
      if (w.syntenylist.length : Int) ≥ min_block then
        let firstpair := w.syntenylist.headD ("", "")
        let lastpair := w.syntenylist.getLastD ("", "")
        let qblockstart := (qget td firstpair.1).start
        let qblockend := (qget td lastpair.1).endp
        { g := { blocknum := s.g.blocknum + 1,
                 blocklengths := assocBump s.g.blocklengths w.syntenylist.length,
                 scaffoldgenecounts := s.g.scaffoldgenecounts,
                 splitgenes := splitgenes,
                 basetotal := s.g.basetotal + (qblockend - qblockstart),
                 lastmatch := blast_refgene,
                 blocks := s.g.blocks ++
                   [⟨scaffold, rg.scaffold, s.g.blocknum, w.syntenylist⟩] },
          accounted := w.accounted, walksteps := w.walksteps, querypos := w.querypos }
      else
        { g := { s.g with splitgenes := splitgenes, lastmatch := blast_refgene },
          accounted := w.accounted, walksteps := w.walksteps, querypos := w.querypos }
    else
      { s with g := { s.g with splitgenes := splitgenes, lastmatch := blast_refgene } }

/-- The candidate loop of one anchor (line 221): every candidate is
visited in descending score order; there is no early exit. -/
def processCandidates (rd : Refdict) (bd : Blastdict) (td : List (String × Querygene))
    (min_block max_span max_distance : Int) (scaffold startingtrans : String)
    (rest : List (String × Querygene)) (s : CandState) : List (String × Int) → CandState
  | [] => s
  | (blast_refgene, bitscore1) :: more =>
    processCandidates rd bd td min_block max_span max_distance scaffold startingtrans rest
      (tryCandidate rd bd td min_block max_span max_distance scaffold startingtrans rest s
        blast_refgene bitscore1) more

/-- One anchor gene (lines 208-220): fresh `walksteps = max_span` and
`querypos`, skip if the gene has no blast matches, otherwise run the
candidate loop on its matches sorted by descending score. -/
def processAnchor (rd : Refdict) (bd : Blastdict) (td : List (String × Querygene))
    (min_block max_span max_distance : Int) (scaffold : String)
    (g : WalkGlobal) (accounted : List String)
    (anchor : String × Querygene) (rest : List (String × Querygene)) :
    WalkGlobal × List String :=
  match alookup bd anchor.1 with
  | none => (g, accounted)
  | some blastrefmatch_dict =>
    let s := processCandidates rd bd td min_block max_span max_distance scaffold anchor.1 rest
      { g := g, accounted := accounted, walksteps := max_span,
        querypos := (anchor.2.start, anchor.2.endp) }
      (sortByScoreDesc blastrefmatch_dict)
    (s.g, s.accounted)

/-- The anchor loop over `orderedtranslist` (line 208); each anchor's
walk sees the genes strictly after it (`orderedtranslist[i+1:]`). -/
def processGenesLoop (rd : Refdict) (bd : Blastdict) (td : List (String × Querygene))
    (min_block max_span max_distance : Int) (scaffold : String) :
    List (String × Querygene) → WalkGlobal × List String → WalkGlobal × List String
  | [], acc => acc
  | anchor :: rest, (g, accounted) =>
    processGenesLoop rd bd td min_block max_span max_distance scaffold rest
      (processAnchor rd bd td min_block max_span max_distance scaffold g accounted anchor rest)

/-- One query scaffold (lines 197-335): record the gene count in
`scaffoldgenecounts`, skip the scaffold when it has fewer than
`min_block` genes, otherwise walk its genes in ascending start order
with a fresh `accounted_query_genes` list.  The per-scaffold consumed
list is returned alongside the global state. -/
def processScaffold (rd : Refdict) (bd : Blastdict)
    (min_block max_span max_distance : Int)
    (g : WalkGlobal) (entry : String × List (String × Querygene)) :
    WalkGlobal × List String :=
  -- source locals: orderedtranslist = sortGenesByStart entry.2,
  -- genesonscaff = its length (recorded in scaffoldgenecounts before the skip test)
  if ((sortGenesByStart entry.2).length : Int) < min_block then
    ({ g with scaffoldgenecounts :=
        assocBump g.scaffoldgenecounts (sortGenesByStart entry.2).length }, [])
  else
    processGenesLoop rd bd entry.2 min_block max_span max_distance entry.1
      (sortGenesByStart entry.2)
      ({ g with scaffoldgenecounts :=
          assocBump g.scaffoldgenecounts (sortGenesByStart entry.2).length }, [])

/-- The full run state of `synteny_walk` over all scaffolds sorted by
name (line 197), before the end-of-run reporting. -/
def synteny_walkState (qd : Querydict) (bd : Blastdict) (rd : Refdict)
    (min_block max_span max_distance : Int) : WalkGlobal :=
  (sortByName qd).foldl
    (fun g e => (processScaffold rd bd min_block max_span max_distance g e).1)
    initGlobal

/-- The message of the deliberate fatal stop at line 341. -/
def noSyntenyMsg : String := "### NO SYNTENY DETECTED, CHECK GENE ID FORMAT PARAMTERS -Q -D"

/-- The uncaught exception raised at line 337 when the query index is
empty: `max(list(scaffoldgenecounts.keys()))` on an empty dict. -/
def emptyMaxMsg : String := "ValueError: max() arg is an empty sequence"

/-- `synteny_walk` including its end-of-run termination behaviour:
line 337 raises `ValueError` when no scaffold was seen at all
(empty query index), and line 340-341 exits fatally with the
no-synteny diagnostic when no block was found. -/
def synteny_walk (qd : Querydict) (bd : Blastdict) (rd : Refdict)
    (min_block max_span max_distance : Int) : Except String WalkGlobal :=
  let st := synteny_walkState qd bd rd min_block max_span max_distance
  if st.scaffoldgenecounts = [] then Except.error emptyMaxMsg
  else if st.blocklengths = [] then Except.error noSyntenyMsg
  else Except.ok st

/-! ### `parse_gtf` (lines 52-121) -/

/-- One feature row of a GTF file after splitting on tabs, with the
columns the source reads: scaffold (0), feature (2), start (3),
end (4), strand (6).  The gene-identifier extraction from the
attribute column (a regular-expression search with fallbacks, lines
80-82 and 97-99) is abstracted as the `geneid` field; comment and
blank lines are dropped before this representation. -/
structure GtfRow where
  scaffold : String
  feature : String
  start : Int
  endp : Int
  strand : String
  geneid : String
deriving DecidableEq, Repr

/-- Whether the first list is a prefix of the second. -/
def isPrefixList : List Char → List Char → Bool
  | [], _ => true
  | _ :: _, [] => false
  | a :: as, b :: bs => a == b && isPrefixList as bs

/-- Scan a reversed string for the reversed delimiter; on the first
hit (the last occurrence in the original string) return the reversed
prefix that precedes it. -/
def revFindSplit (dRev : List Char) : List Char → Option (List Char)
  | [] => none
  | c :: rest =>
    if isPrefixList dRev (c :: rest) then some ((c :: rest).drop dRev.length)
    else revFindSplit dRev rest

/-- Python `s.rsplit(d, 1)[0]`: everything before the last occurrence
of the delimiter, or the whole string when the delimiter is absent. -/
def rsplitHead (d s : String) : String :=
  match revFindSplit d.toList.reverse s.toList.reverse with
  | none => s
  | some revHead => String.mk revHead.reverse

/-- Line 84-85: the delimiter split is applied only when a delimiter
was given (`if delimiter:`). -/
def applyDelim (d : Option String) (g : String) : String :=
  match d with
  | none => g
  | some ds => rsplitHead ds g

/-- Line 78: `feature=="gene" or feature=="transcript" or feature=="mRNA"`. -/
def geneFeature (r : GtfRow) : Bool :=
  r.feature == "gene" || r.feature == "transcript" || r.feature == "mRNA"

/-- The exon-collection state of `parse_gtf` (lines 66-68):
`nametoscaffold`, `nametostrand` (last-write maps) and
`exonboundaries` (per-gene list of exon bounds, in file order). -/
structure ExonState where
  nametoscaffold : List (String × String)
  nametostrand : List (String × String)
  exonboundaries : List (String × List (Int × Int))
deriving DecidableEq, Repr

/-- The loop state of `parse_gtf` in reference mode (`isref=True`):
the flat gene dictionary plus the exon-collection state. -/
structure RefGeneState where
  genes : List (String × Refgene)
  ex : ExonState
deriving DecidableEq, Repr

/-- One iteration of the row loop of `parse_gtf` in reference mode
(lines 69-103): excluded scaffolds are skipped (74-75); gene-type
features write a `refgene` under the (optionally delimiter-split)
identifier (88-90); exon features, when `exonstogenes`, update the
scaffold/strand last-write maps and append the exon bounds
(95-103, note: no delimiter split in this branch). -/
def parse_gtf_ref_step (exonstogenes : Bool) (exclude : String → Bool)
    (delimiter : Option String) (st : RefGeneState) (row : GtfRow) : RefGeneState :=
  if exclude row.scaffold then st
  else if geneFeature row then
    { st with genes :=
        (assocSet st.genes (applyDelim delimiter row.geneid)
          ⟨row.scaffold, row.start, row.endp, row.strand⟩) }
  else if exonstogenes && (row.feature == "exon") then
    { st with ex :=
        { nametoscaffold := assocSet st.ex.nametoscaffold row.geneid row.scaffold,
          nametostrand := assocSet st.ex.nametostrand row.geneid row.strand,
          exonboundaries := assocAppend st.ex.exonboundaries row.geneid (row.start, row.endp) } }
  else st

/-- `min(x[0] for x in exons)` over a nonempty exon list (line 115);
the source never evaluates it on an empty list. -/
def minStarts : List (Int × Int) → Int
  | [] => 0
  | e :: t => t.foldl (fun m p => min m p.1) e.1

/-- `max(x[1] for x in exons)` (line 115). -/
def maxEnds : List (Int × Int) → Int
  | [] => 0
  | e :: t => t.foldl (fun m p => max m p.2) e.2

/-- `parse_gtf` with `isref=True` (lines 52-121): when at least one
gene-type record was retained the gene dictionary is returned
(105-110); otherwise gene models are inferred from the collected exons
(111-121) with bounds `min`/`max` over each gene's exons and
scaffold/strand from the respective last-write maps. -/
def parse_gtf_ref (rows : List GtfRow) (exonstogenes : Bool) (exclude : String → Bool)
    (delimiter : Option String) : List (String × Refgene) :=
  let st := rows.foldl (parse_gtf_ref_step exonstogenes exclude delimiter) ⟨[], ⟨[], [], []⟩⟩
  if st.genes.length > 0 then st.genes
  else
    st.ex.exonboundaries.map (fun ge =>
      (ge.1, ⟨(alookup st.ex.nametoscaffold ge.1).getD "",
              minStarts ge.2, maxEnds ge.2,
              (alookup st.ex.nametostrand ge.1).getD ""⟩))

/-- `d[k1][k2] = v` on a `defaultdict(dict)` (lines 93, 154): the
outer key is created on access, the inner entry is overwritten in
place or appended. -/
def assocSet2 {β : Type} : List (String × List (String × β)) → String → String → β →
    List (String × List (String × β))
  | [], sc, gk, v => [(sc, [(gk, v)])]
  | (k, inner) :: t, sc, gk, v =>
    if k = sc then (k, assocSet inner gk v) :: t else (k, inner) :: assocSet2 t sc gk v

/-- The loop state of `parse_gtf` in query mode (`isref=False`). -/
structure QueryGeneState where
  genes : List (String × List (String × Querygene))
  ex : ExonState
deriving DecidableEq, Repr

/-- One iteration of the row loop of `parse_gtf` in query mode
(lines 69-103, `isref=False` branch at 91-93). -/
def parse_gtf_query_step (exonstogenes : Bool) (exclude : String → Bool)
    (delimiter : Option String) (st : QueryGeneState) (row : GtfRow) : QueryGeneState :=
  if exclude row.scaffold then st
  else if geneFeature row then
    { st with genes :=
        (assocSet2 st.genes row.scaffold (applyDelim delimiter row.geneid)
          ⟨row.start, row.endp, row.strand⟩) }
  else if exonstogenes && (row.feature == "exon") then
    { st with ex :=
        { nametoscaffold := assocSet st.ex.nametoscaffold row.geneid row.scaffold,
          nametostrand := assocSet st.ex.nametostrand row.geneid row.strand,
          exonboundaries := assocAppend st.ex.exonboundaries row.geneid (row.start, row.endp) } }
  else st

/-- `parse_gtf` with `isref=False` (lines 52-121): the scaffold-keyed
dict of dicts, with the exon-inference fallback of lines 111-121. -/
def parse_gtf_query (rows : List GtfRow) (exonstogenes : Bool) (exclude : String → Bool)
    (delimiter : Option String) : Querydict :=
  let st := rows.foldl (parse_gtf_query_step exonstogenes exclude delimiter) ⟨[], ⟨[], [], []⟩⟩
  if st.genes.length > 0 then st.genes
  else
    st.ex.exonboundaries.foldl (fun acc ge =>
      assocSet2 acc ((alookup st.ex.nametoscaffold ge.1).getD "") ge.1
        ⟨minStarts ge.2, maxEnds ge.2, (alookup st.ex.nametostrand ge.1).getD ""⟩) st.genes

/-- The exon rows that contribute to an inferred gene `g`: not on an
excluded scaffold, feature `exon`, identifier `g`. -/
def exonMatch (exclude : String → Bool) (g : String) (r : GtfRow) : Bool :=
  !(exclude r.scaffold) && (r.feature == "exon") && (r.geneid == g)

/-- All rows of the file contributing exons to gene `g`, in file order. -/
def exonRows (exclude : String → Bool) (g : String) (rows : List GtfRow) : List GtfRow :=
  rows.filter (exonMatch exclude g)

/-- Appending to the optional entry of a `defaultdict(list)`. -/
def oappend {α : Type} (o : Option (List α)) (l : List α) : Option (List α) :=
  match o, l with
  | o, [] => o
  | none, l => some l
  | some v, l => some (v ++ l)

/-- Fallback of an optional value, `none` replaced by a default option. -/
def ofallback {α : Type} (o fb : Option α) : Option α :=
  match o with
  | none => fb
  | some v => some v

/-! ### `parse_tabular_blast` (lines 123-159) -/

/-- One tabular blast hit line after splitting on tabs, with the
columns the source reads: qseqid (0), sseqid (1), evalue (10),
bitscore (11).  Scores and e-values are modelled as integers; the
properties under study only compare them. -/
structure BlastRow where
  qseqid : String
  sseqid : String
  evalue : Int
  bitscore : Int
deriving DecidableEq, Repr

/-- Lines 138-143: the query/subject ids after the delimiter trim; in
switched mode the roles of the two columns are exchanged and each
keeps its own delimiter. -/
def trimIds (switchquery : Bool) (querydelimiter refdelimiter : String) (row : BlastRow) :
    String × String :=
  if switchquery then
    (rsplitHead refdelimiter row.sseqid, rsplitHead querydelimiter row.qseqid)
  else
    (rsplitHead querydelimiter row.qseqid, rsplitHead refdelimiter row.sseqid)

/-- The loop state of `parse_tabular_blast` (lines 131-133). -/
structure BlastState where
  query_to_sub_dict : List (String × List (String × Int))
  query_hits : List (String × Nat)
  evalueRemovals : Nat
deriving DecidableEq, Repr

/-- One iteration of the hit loop (lines 134-155): hits above the
e-value cutoff are counted as removed (146-148); once a query has
reached `maxhits` counted hits, further lines are dropped (150-151);
otherwise the (query, subject) entry is written — overwriting any
earlier bitscore for the pair — and the query's hit counter is
incremented (153-155). -/
def parse_tabular_blast_step (evaluecutoff : Int) (querydelimiter refdelimiter : String)
    (switchquery : Bool) (maxhits : Nat) (st : BlastState) (row : BlastRow) : BlastState :=
  -- source locals: queryseq = (trimIds ...).1, subjectid = (trimIds ...).2
  if row.evalue > evaluecutoff then { st with evalueRemovals := st.evalueRemovals + 1 }
  else if (alookup st.query_hits (trimIds switchquery querydelimiter refdelimiter row).1).getD 0
      ≥ maxhits then st
  else
    { st with
      query_to_sub_dict :=
        (assocSet2 st.query_to_sub_dict
          (trimIds switchquery querydelimiter refdelimiter row).1
          (trimIds switchquery querydelimiter refdelimiter row).2 row.bitscore),
      query_hits :=
        (assocBumpStr st.query_hits
          (trimIds switchquery querydelimiter refdelimiter row).1) }

/-- `parse_tabular_blast` (lines 123-159) over pre-split hit lines. -/
def parse_tabular_blast (rows : List BlastRow) (evaluecutoff : Int)
    (querydelimiter refdelimiter : String) (switchquery : Bool) (maxhits : Nat) : BlastState :=
  rows.foldl
    (parse_tabular_blast_step evaluecutoff querydelimiter refdelimiter switchquery maxhits)
    ⟨[], [], 0⟩

/-! ### The switched-query binding of `main` (lines 393-396) -/

/-- The number of required positional parameters of `parse_gtf`
(line 52: `gtffile, exonstogenes, excludedict, delimiter`; only
`isref` has a default). -/
def parse_gtf_requiredPositional : Nat := 4

/-- The number of positional arguments passed to `parse_gtf` by the
call on line 394: `parse_gtf(args.db_gtf, args.no_genes, exclusionDict)`. -/
def parse_gtf_line394_positional : Nat := 3

/-- The message of the `TypeError` Python raises for that call. -/
def typeErrorMsg : String :=
  "TypeError: parse_gtf() missing 1 required positional argument: delimiter"

/-- Line 394 in switched-query mode:
`querydict = parse_gtf(args.db_gtf, args.no_genes, exclusionDict), args.db_delimiter`.
Python evaluates the function call before forming the tuple; the call
passes three positional arguments against four required parameters and
therefore raises `TypeError`, so the tuple is never constructed and
`querydict` is never bound.  The `ok` branch models the binding the
claim describes and is unreachable (3 < 4). -/
def main_switched_querydict (dbRows : List GtfRow) (noGenes : Bool)
    (exclude : String → Bool) (dbDelim : Option String) :
    Except String (Querydict × Option String) :=
  if parse_gtf_line394_positional < parse_gtf_requiredPositional then
    Except.error typeErrorMsg
  else
    Except.ok (parse_gtf_query dbRows noGenes exclude dbDelim, dbDelim)

instance {ε α : Type} [DecidableEq ε] [DecidableEq α] : DecidableEq (Except ε α) := fun x y =>
  match x, y with
  | .error a, .error b =>
    if h : a = b then .isTrue (by rw [h]) else .isFalse (fun hh => h (Except.error.inj hh))
  | .ok a, .ok b =>
    if h : a = b then .isTrue (by rw [h]) else .isFalse (fun hh => h (Except.ok.inj hh))
  | .error _, .ok _ => .isFalse (fun hh => Except.noConfusion hh)
  | .ok _, .error _ => .isFalse (fun hh => Except.noConfusion hh)

/-! ### Concrete inputs used by the counterexamples and witnesses -/

/-- One scaffold with three genes whose anchor has candidates on two
different reference scaffolds; every gene also has a candidate on
each reference scaffold. -/
def C1q : Querydict :=
  [("s", [("g1", ⟨100, 150, "+"⟩), ("g2", ⟨200, 250, "+"⟩), ("g3", ⟨300, 350, "+"⟩)])]

def C1b : Blastdict :=
  [("g1", [("rA1", 100), ("rB1", 90)]),
   ("g2", [("rA2", 90), ("rB2", 80)]),
   ("g3", [("rA3", 90), ("rB3", 80)])]

def C1r : Refdict :=
  [("rA1", ⟨"A", 1000, 1100, "+"⟩), ("rA2", ⟨"A", 1200, 1300, "+"⟩),
   ("rA3", ⟨"A", 1400, 1500, "+"⟩), ("rB1", ⟨"B", 2000, 2100, "+"⟩),
   ("rB2", ⟨"B", 2200, 2300, "+"⟩), ("rB3", ⟨"B", 2400, 2500, "+"⟩)]

/-- Three genes where the middle gene's only candidate is the anchor's
matched reference gene. -/
def C2q : Querydict :=
  [("s", [("g1", ⟨100, 150, "+"⟩), ("g2", ⟨200, 250, "+"⟩), ("g3", ⟨300, 350, "+"⟩)])]

def C2b : Blastdict := [("g1", [("r1", 100)]), ("g2", [("r1", 90)]), ("g3", [("r3", 80)])]

def C2r : Refdict := [("r1", ⟨"A", 1000, 1100, "+"⟩), ("r3", ⟨"A", 1200, 1300, "+"⟩)]

/-- Reference genes for the scan-level evaluations of claim C4. -/
def C4r : Refdict := [("r1", ⟨"A", 1000, 1100, "+"⟩), ("r2", ⟨"A", 1200, 1300, "+"⟩)]

/-- Four genes on one scaffold: the chain from `g1` picks up `g2` and
marks `g3` as a continuation, then rejects `g4` on reference distance
and is discarded with only two pairs. -/
def C5genes : List (String × Querygene) :=
  [("g1", ⟨100, 150, "+"⟩), ("g2", ⟨200, 250, "+"⟩),
   ("g3", ⟨300, 350, "+"⟩), ("g4", ⟨400, 450, "+"⟩)]

def C5b : Blastdict :=
  [("g1", [("ra", 100)]), ("g2", [("rb", 100)]), ("g3", [("ra", 100)]), ("g4", [("rd", 100)])]

def C5r : Refdict :=
  [("ra", ⟨"A", 1000, 1100, "+"⟩), ("rb", ⟨"A", 1200, 1300, "+"⟩), ("rd", ⟨"A", 850, 950, "+"⟩)]

/-- Scenario B of the specification: one scaffold with four genes,
every gene except `g3` with a single homolog at increasing coordinates
on one reference scaffold. -/
def C7q : Querydict :=
  [("x", [("g1", ⟨100, 150, "+"⟩), ("g2", ⟨200, 250, "+"⟩),
          ("g3", ⟨300, 350, "+"⟩), ("g4", ⟨400, 450, "+"⟩)])]

def C7b : Blastdict := [("g1", [("r1", 100)]), ("g2", [("r2", 100)]), ("g4", [("r4", 100)])]

def C7r : Refdict :=
  [("r1", ⟨"A", 1000, 1100, "+"⟩), ("r2", ⟨"A", 1200, 1300, "+"⟩), ("r4", ⟨"A", 1600, 1700, "+"⟩)]

/-- The genes after `g1` on scenario B's scaffold, as the walk sees them. -/
def C7rest : List (String × Querygene) :=
  [("g2", ⟨200, 250, "+"⟩), ("g3", ⟨300, 350, "+"⟩), ("g4", ⟨400, 450, "+"⟩)]

/-- A candidate state whose anchor gene is already consumed. -/
def C1wS : CandState :=
  { g := initGlobal, accounted := ["gX"], walksteps := 5, querypos := (0, 1) }

/-- The histogram of block lengths is empty exactly when no block has
been emitted; trivially true initially and preserved by every step of
the walk (finalizing a block makes both nonempty at once). -/
def GInv (g : WalkGlobal) : Prop := g.blocklengths = [] ↔ g.blocks = []

/-- A nonempty query scaffold with no blast hits at all. -/
def C6wq : Querydict := [("s", [("a", ⟨1, 2, "+"⟩), ("b", ⟨3, 4, "+"⟩), ("c", ⟨5, 6, "+"⟩)])]

/-- The exclusion predicate of the C8 witness run: nothing excluded. -/
def C8excl : String → Bool := fun _ => false

/-- Two exon rows for one gene with differing scaffolds and strands. -/
def C8rows : List GtfRow :=
  [⟨"sc", "exon", 100, 200, "+", "gA"⟩, ⟨"sc2", "exon", 50, 300, "-", "gA"⟩]

/-- Three hit lines: the first two share query and subject, the third
has a fresh subject. -/
def C10rows : List BlastRow := [⟨"q", "s", 0, 10⟩, ⟨"q", "s", 0, 20⟩, ⟨"q", "s2", 0, 30⟩]

/-- The state after the first C10 row, used by the witness. -/
def C10st : BlastState := ⟨[("q", [("s", 10)])], [("q", 1)], 0⟩

/-- The second C10 row. -/
def C10row : BlastRow := ⟨"q", "s", 0, 20⟩

/-! ### Claims C1-C5 and C7 -/

/-- Claim C1, counterexample.  On input `C1q`/`C1b`/`C1r` with
`minBlock = 3`, `maxSpan = 5`, `maxDistance = 30000`, the run
finalizes two distinct blocks on scaffold `s` whose query-gene sets
are both `{g1, g2, g3}`: the inner gene walk never checks whether a
gene is already consumed, so blocks are not exclusive over query
genes. -/
theorem claim_C1_counterexample :
    (synteny_walkState C1q C1b C1r 3 5 30000).blocks.map
        (fun b => (b.scaffold, b.pairs.map Prod.fst))
      = [("s", ["g1", "g2", "g3"]), ("s", ["g1", "g2", "g3"])] := by decide

/-- Claim C1 as amended: consumption only guards anchors.  Whenever the
anchor gene is already in `accounted_query_genes`, the candidate
iteration skips the candidate entirely: the state is unchanged except
for the split-gene diagnostic (lines 226-229; `lastmatch` is not
updated because the loop `continue`s before line 335). -/
theorem claim_C1 (rd : Refdict) (bd : Blastdict) (td : List (String × Querygene))
    (m ms md : Int) (scaf anchor : String) (rest : List (String × Querygene))
    (s : CandState) (c : String) (b : Int) (h : anchor ∈ s.accounted) :
    tryCandidate rd bd td m ms md scaf anchor rest s c b
      = { s with g := { s.g with
            splitgenes := if c = s.g.lastmatch then s.g.splitgenes + 1 else s.g.splitgenes } } := by
  unfold tryCandidate
  simp [h]

/-- Witness for claim C1's amended theorem at a concrete state. -/
theorem claim_C1_witness :
    "gX" ∈ C1wS.accounted ∧
    tryCandidate [] [] [] 3 5 30000 "s" "gX" [] C1wS "rr" 10
      = { C1wS with g := { C1wS.g with
            splitgenes := if "rr" = C1wS.g.lastmatch then C1wS.g.splitgenes + 1
                          else C1wS.g.splitgenes } } :=
  ⟨by decide, claim_C1 [] [] [] 3 5 30000 "s" "gX" [] C1wS "rr" 10 (by decide)⟩

/-- Claim C2, counterexample.  In the run on `C2q`/`C2b`/`C2r` the walk
from anchor `g1` (matched to `r1`) scans candidate `r1` of gene `g2`:
the candidate's reference scaffold equals the chain's (`A`) and both
signed distances are within `maxDistance = 30000`, yet it is not
accepted — no pair is appended and the budget is not reset — because
the continuation branch (candidate equal to the anchor's match, lines
259-261) takes precedence over the acceptance rule.  The finalized
block consequently pairs only `g1` and `g3`. -/
theorem claim_C2_counterexample :
    (refget C2r "r1").scaffold = "A" ∧
    (refget C2r "r1").start - 1100 ≤ 30000 ∧
    1000 - (refget C2r "r1").endp ≤ 30000 ∧
    scanCandidates C2r "r1" "A" (1000, 1100) 30000 5 5 [] [("g1", "r1")] "g2" [("r1", 90)]
      = ⟨4, (1000, 1100), ["g2"], [("g1", "r1")]⟩ ∧
    (synteny_walkState C2q C2b C2r 2 5 30000).blocks.map Block.pairs
      = [[("g1", "r1"), ("g3", "r3")]] := by decide

/-- Claim C2 as amended: for a scanned candidate whose reference id
differs from the anchor's matched reference gene, acceptance holds if
and only if the candidate's reference scaffold equals the chain's and
both `distForward = candidateRefStart - chainRefEnd` and
`distBackward = chainRefStart - candidateRefEnd` are at most
`maxDistance`; on acceptance the pair is appended, the gene is marked
consumed, the budget is reset to `maxSpan`, the chain's reference
bounds become the candidate's bounds and no further candidates are
scanned; otherwise the candidate is skipped and scanning continues
with the remaining candidates, so a candidate on a different reference
scaffold is never chained. -/
theorem claim_C2 (rd : Refdict) (anchorRef refscaf : String) (sp : Int × Int)
    (md ms w : Int) (acc : List String) (syn : List (String × String))
    (gene c : String) (b : Int) (rest : List (String × Int)) (hc : c ≠ anchorRef) :
    (((refget rd c).scaffold = refscaf ∧ (refget rd c).start - sp.2 ≤ md ∧
        sp.1 - (refget rd c).endp ≤ md) →
      scanCandidates rd anchorRef refscaf sp md ms w acc syn gene ((c, b) :: rest)
        = ⟨ms, ((refget rd c).start, (refget rd c).endp), acc ++ [gene], syn ++ [(gene, c)]⟩)
    ∧ (¬((refget rd c).scaffold = refscaf ∧ (refget rd c).start - sp.2 ≤ md ∧
        sp.1 - (refget rd c).endp ≤ md) →
      scanCandidates rd anchorRef refscaf sp md ms w acc syn gene ((c, b) :: rest)
        = scanCandidates rd anchorRef refscaf sp md ms w acc syn gene rest) := by
  constructor
  · rintro ⟨h1, h2, h3⟩
    have hno : ¬((refget rd c).start - sp.2 > md ∨ sp.1 - (refget rd c).endp > md) := by omega
    simp only [scanCandidates]
    rw [if_neg hc, if_pos h1, if_neg hno]
  · intro hn
    simp only [scanCandidates]
    rw [if_neg hc]
    by_cases h1 : (refget rd c).scaffold = refscaf
    · have hd : (refget rd c).start - sp.2 > md ∨ sp.1 - (refget rd c).endp > md := by
        rcases not_and_or.mp hn with h | h
        · exact absurd h1 h
        · rcases not_and_or.mp h with h' | h'
          · exact Or.inl (by omega)
          · exact Or.inr (by omega)
      rw [if_pos h1, if_pos hd]
    · rw [if_neg h1]

/-- Witness for claim C2's amended theorem: the acceptance case at the
state reached for gene `g3` in the `C2` run. -/
theorem claim_C2_witness :
    ("r3" : String) ≠ "r1" ∧
    scanCandidates C2r "r1" "A" (1000, 1100) 30000 5 5 [] [("g1", "r1")] "g3" [("r3", 80)]
      = ⟨5, (1200, 1300), ["g3"], [("g1", "r1"), ("g3", "r3")]⟩ :=
  ⟨by decide,
    (claim_C2 C2r "r1" "A" (1000, 1100) 30000 5 5 [] [("g1", "r1")] "g3" "r3" 80 []
      (by decide)).1 (by decide)⟩

/-- Claim C3, counterexample.  On the `C1` input, anchor `g1` seeds two
chain attempts — one per candidate — and both are finalized: the
candidate loop has no exit after a chain is finalized or discarded, so
an anchor does not seed at most one chain attempt. -/
theorem claim_C3_counterexample :
    (synteny_walkState C1q C1b C1r 3 5 30000).blocks.map
        (fun b => (b.blocknum, b.pairs.headD ("", "")))
      = [(1, ("g1", "rA1")), (2, ("g1", "rB1"))] := by decide

/-- Claim C3 as amended: the candidate loop of an anchor never stops
early.  Processing a concatenation of candidate lists equals processing
the first list and continuing with the second from the resulting state,
whatever blocks were finalized or discarded along the way; candidates
are only skipped individually through the consumed-anchor guard. -/
theorem claim_C3 (rd : Refdict) (bd : Blastdict) (td : List (String × Querygene))
    (m ms md : Int) (scaf anchor : String) (rest : List (String × Querygene))
    (l₁ l₂ : List (String × Int)) (s : CandState) :
    processCandidates rd bd td m ms md scaf anchor rest s (l₁ ++ l₂)
      = processCandidates rd bd td m ms md scaf anchor rest
          (processCandidates rd bd td m ms md scaf anchor rest s l₁) l₂ := by
  induction l₁ generalizing s with
  | nil => rfl
  | cons c t ih =>
    obtain ⟨cg, cb⟩ := c
    simp only [List.cons_append, processCandidates]
    exact ih _

/-- Claim C4, counterexample.  Two scan-level evaluations at states
arising in real walks: (a) gene `g2`'s only candidate equals the
chain's last reference id `r1` (the chain is just the anchor pair), the
gene is marked consumed and no pair is appended, but the budget drops
from 3 to 2 — the `for`-`else` decrements it because no candidate was
accepted, contradicting "leaves the step budget unchanged"; (b) after
the chain has grown to `[(g1,r1),(g2,r2)]`, gene `g3`'s candidate `r2`
equals the chain's *last* reference id but not the anchor's match `r1`,
and instead of being treated as a continuation it is accepted as a new
pair with the budget reset to 5. -/
theorem claim_C4_counterexample :
    scanCandidates C4r "r1" "A" (1000, 1100) 30000 5 3 [] [("g1", "r1")] "g2" [("r1", 50)]
      = ⟨2, (1000, 1100), ["g2"], [("g1", "r1")]⟩ ∧
    scanCandidates C4r "r1" "A" (1200, 1300) 30000 5 3 []
        [("g1", "r1"), ("g2", "r2")] "g3" [("r2", 50)]
      = ⟨5, (1200, 1300), ["g3"], [("g1", "r1"), ("g2", "r2"), ("g3", "r2")]⟩ := by decide

/-- Claim C4 as amended: the continuation test compares against the
chain's first reference id (the anchor's match), not its last; a
continuation candidate marks the gene consumed and appends nothing,
and scanning continues.  When every candidate of the gene equals the
anchor's match, the gene is marked consumed once per candidate, the
chain and reference bounds are unchanged, and the step budget is
decremented by one through the `for`-`else`. -/
theorem claim_C4 (rd : Refdict) (anchorRef refscaf : String) (sp : Int × Int)
    (md ms w : Int) (acc : List String) (syn : List (String × String)) (gene : String)
    (cands : List (String × Int)) (h : ∀ p ∈ cands, p.1 = anchorRef) :
    scanCandidates rd anchorRef refscaf sp md ms w acc syn gene cands
      = ⟨w - 1, sp, acc ++ cands.map (fun _ => gene), syn⟩ := by
  induction cands generalizing acc with
  | nil => simp [scanCandidates]
  | cons p t ih =>
    obtain ⟨pm, pb⟩ := p
    have hp : pm = anchorRef := h (pm, pb) (by simp)
    simp only [scanCandidates, if_pos hp]
    rw [ih (acc ++ [gene]) (fun q hq => h q (List.mem_cons_of_mem _ hq))]
    simp

/-- Witness for claim C4's amended theorem: a gene with two
continuation candidates is consumed twice and costs one budget step. -/
theorem claim_C4_witness :
    (∀ p ∈ [(("r1" : String), (50 : Int)), ("r1", 40)], p.1 = "r1") ∧
    scanCandidates C4r "r1" "A" (1000, 1100) 30000 5 3 [] [("g1", "r1")] "g2"
        [("r1", 50), ("r1", 40)]
      = ⟨2, (1000, 1100), ["g2", "g2"], [("g1", "r1")]⟩ :=
  ⟨by decide,
    claim_C4 C4r "r1" "A" (1000, 1100) 30000 5 3 [] [("g1", "r1")] "g2"
      [("r1", 50), ("r1", 40)] (by decide)⟩

/-- Claim C5, counterexample.  On scaffold `s` of the `C5` input the
only chain containing `g2` and `g3` ends with two pairs and is
discarded (`minBlock = 3`), yet the scaffold's final consumed list is
`["g2","g3"]` and no block exists: genes added to a discarded chain
are treated as consumed and are skipped as anchors of later chains,
contradicting the claimed eligibility. -/
theorem claim_C5_counterexample :
    (processScaffold C5r C5b 3 5 150 initGlobal ("s", C5genes)).2 = ["g2", "g3"] ∧
    (processScaffold C5r C5b 3 5 150 initGlobal ("s", C5genes)).1.blocks = [] := by decide

/-- Claim C5 as amended: consumption is independent of the
finalize/discard decision.  The consumed list produced by a candidate
attempt does not depend on `minBlock` at all — genes added to a chain
are marked consumed whether the chain is kept or discarded (only the
anchor itself is never marked by its own chain). -/
theorem claim_C5 (rd : Refdict) (bd : Blastdict) (td : List (String × Querygene))
    (m m' ms md : Int) (scaf anchor : String) (rest : List (String × Querygene))
    (s : CandState) (c : String) (b : Int) :
    (tryCandidate rd bd td m ms md scaf anchor rest s c b).accounted
      = (tryCandidate rd bd td m' ms md scaf anchor rest s c b).accounted := by
  unfold tryCandidate
  by_cases h1 : anchor ∈ s.accounted
  · simp [h1]
  · by_cases h2 : rest = []
    · simp [h1, h2]
    · have h2' : rest ≠ [] := h2
      simp only [if_neg h1, if_pos h2']
      rw [apply_ite CandState.accounted, apply_ite CandState.accounted]
      simp

/-! ### Invariants connecting `blocklengths` to the emitted blocks -/

lemma assocBump_ne_nil (h : List (Nat × Nat)) (k : Nat) : assocBump h k ≠ [] := by
  cases h with
  | nil => simp [assocBump]
  | cons e t =>
    obtain ⟨k', v⟩ := e
    simp only [assocBump]
    split <;> simp

lemma tryCandidate_GInv (rd : Refdict) (bd : Blastdict) (td : List (String × Querygene))
    (m ms md : Int) (scaf anchor : String) (rest : List (String × Querygene))
    (s : CandState) (c : String) (b : Int) (h : GInv s.g) :
    GInv (tryCandidate rd bd td m ms md scaf anchor rest s c b).g := by
  unfold tryCandidate
  by_cases h1 : anchor ∈ s.accounted
  · simpa [GInv, h1] using h
  · by_cases h2 : rest = []
    · simpa [GInv, h1, h2] using h
    · have h2' : rest ≠ [] := h2
      simp only [if_neg h1, if_pos h2']
      split
      · simp [GInv, assocBump_ne_nil]
      · simpa [GInv] using h

lemma tryCandidate_counts (rd : Refdict) (bd : Blastdict) (td : List (String × Querygene))
    (m ms md : Int) (scaf anchor : String) (rest : List (String × Querygene))
    (s : CandState) (c : String) (b : Int) :
    (tryCandidate rd bd td m ms md scaf anchor rest s c b).g.scaffoldgenecounts
      = s.g.scaffoldgenecounts := by
  unfold tryCandidate
  by_cases h1 : anchor ∈ s.accounted
  · simp [h1]
  · by_cases h2 : rest = []
    · simp [h1, h2]
    · have h2' : rest ≠ [] := h2
      simp only [if_neg h1, if_pos h2']
      split <;> rfl

lemma processCandidates_GInv (rd : Refdict) (bd : Blastdict) (td : List (String × Querygene))
    (m ms md : Int) (scaf anchor : String) (rest : List (String × Querygene))
    (l : List (String × Int)) : ∀ (s : CandState), GInv s.g →
    GInv (processCandidates rd bd td m ms md scaf anchor rest s l).g := by
  induction l with
  | nil => intro s h; exact h
  | cons c t ih =>
    intro s h
    obtain ⟨cg, cb⟩ := c
    exact ih _ (tryCandidate_GInv rd bd td m ms md scaf anchor rest s cg cb h)

lemma processCandidates_counts (rd : Refdict) (bd : Blastdict) (td : List (String × Querygene))
    (m ms md : Int) (scaf anchor : String) (rest : List (String × Querygene))
    (l : List (String × Int)) : ∀ (s : CandState),
    (processCandidates rd bd td m ms md scaf anchor rest s l).g.scaffoldgenecounts
      = s.g.scaffoldgenecounts := by
  induction l with
  | nil => intro s; rfl
  | cons c t ih =>
    intro s
    obtain ⟨cg, cb⟩ := c
    rw [processCandidates, ih _, tryCandidate_counts]

lemma processAnchor_GInv (rd : Refdict) (bd : Blastdict) (td : List (String × Querygene))
    (m ms md : Int) (scaf : String) (g : WalkGlobal) (acc : List String)
    (anchor : String × Querygene) (rest : List (String × Querygene)) (h : GInv g) :
    GInv (processAnchor rd bd td m ms md scaf g acc anchor rest).1 := by
  unfold processAnchor
  cases alookup bd anchor.1 with
  | none => exact h
  | some d => exact processCandidates_GInv rd bd td m ms md scaf anchor.1 rest _ _ h

lemma processAnchor_counts (rd : Refdict) (bd : Blastdict) (td : List (String × Querygene))
    (m ms md : Int) (scaf : String) (g : WalkGlobal) (acc : List String)
    (anchor : String × Querygene) (rest : List (String × Querygene)) :
    (processAnchor rd bd td m ms md scaf g acc anchor rest).1.scaffoldgenecounts
      = g.scaffoldgenecounts := by
  unfold processAnchor
  cases alookup bd anchor.1 with
  | none => rfl
  | some d => exact processCandidates_counts rd bd td m ms md scaf anchor.1 rest _ _

lemma processGenesLoop_GInv (rd : Refdict) (bd : Blastdict) (td : List (String × Querygene))
    (m ms md : Int) (scaf : String) (l : List (String × Querygene)) :
    ∀ (g : WalkGlobal) (acc : List String), GInv g →
    GInv (processGenesLoop rd bd td m ms md scaf l (g, acc)).1 := by
  induction l with
  | nil => intro g acc h; exact h
  | cons a rest ih =>
    intro g acc h
    rw [processGenesLoop]
    rcases hp : processAnchor rd bd td m ms md scaf g acc a rest with ⟨g', acc'⟩
    have hg' := processAnchor_GInv rd bd td m ms md scaf g acc a rest h
    rw [hp] at hg'
    exact ih g' acc' hg'

lemma processGenesLoop_counts (rd : Refdict) (bd : Blastdict) (td : List (String × Querygene))
    (m ms md : Int) (scaf : String) (l : List (String × Querygene)) :
    ∀ (g : WalkGlobal) (acc : List String),
    (processGenesLoop rd bd td m ms md scaf l (g, acc)).1.scaffoldgenecounts
      = g.scaffoldgenecounts := by
  induction l with
  | nil => intro g acc; rfl
  | cons a rest ih =>
    intro g acc
    rw [processGenesLoop]
    rcases hp : processAnchor rd bd td m ms md scaf g acc a rest with ⟨g', acc'⟩
    have hc := processAnchor_counts rd bd td m ms md scaf g acc a rest
    rw [hp] at hc
    rw [ih g' acc', hc]

lemma processScaffold_GInv (rd : Refdict) (bd : Blastdict) (m ms md : Int)
    (g : WalkGlobal) (e : String × List (String × Querygene)) (h : GInv g) :
    GInv (processScaffold rd bd m ms md g e).1 := by
  unfold processScaffold
  split
  · exact h
  · exact processGenesLoop_GInv rd bd e.2 m ms md e.1 _ _ _ h

lemma processScaffold_counts (rd : Refdict) (bd : Blastdict) (m ms md : Int)
    (g : WalkGlobal) (e : String × List (String × Querygene)) :
    (processScaffold rd bd m ms md g e).1.scaffoldgenecounts
      = assocBump g.scaffoldgenecounts (sortGenesByStart e.2).length := by
  unfold processScaffold
  split
  · rfl
  · exact processGenesLoop_counts rd bd e.2 m ms md e.1 _ _ _

lemma foldScaffolds_GInv (rd : Refdict) (bd : Blastdict) (m ms md : Int)
    (l : List (String × List (String × Querygene))) : ∀ (g : WalkGlobal), GInv g →
    GInv (l.foldl (fun g e => (processScaffold rd bd m ms md g e).1) g) := by
  induction l with
  | nil => intro g h; exact h
  | cons e t ih =>
    intro g h
    exact ih _ (processScaffold_GInv rd bd m ms md g e h)

lemma foldScaffolds_counts_ne (rd : Refdict) (bd : Blastdict) (m ms md : Int)
    (l : List (String × List (String × Querygene))) : ∀ (g : WalkGlobal), l ≠ [] →
    (l.foldl (fun g e => (processScaffold rd bd m ms md g e).1) g).scaffoldgenecounts ≠ [] := by
  induction l with
  | nil => intro g h; exact absurd rfl h
  | cons e t ih =>
    intro g _
    rcases Decidable.em (t = []) with ht | ht
    · subst ht
      simp only [List.foldl]
      rw [processScaffold_counts]
      exact assocBump_ne_nil _ _
    · exact ih _ ht

lemma insertByName_length {β : Type} (x : String × β) (l : List (String × β)) :
    (insertByName x l).length = l.length + 1 := by
  induction l with
  | nil => rfl
  | cons y ys ih =>
    simp only [insertByName]
    split
    · rfl
    · simp [ih]

lemma sortByName_length {β : Type} (l : List (String × β)) :
    (sortByName l).length = l.length := by
  have aux : ∀ (t : List (String × β)) (acc : List (String × β)),
      (t.foldl (fun a x => insertByName x a) acc).length = acc.length + t.length := by
    intro t
    induction t with
    | nil => intro acc; simp
    | cons y ys ih =>
      intro acc
      simp only [List.foldl]
      rw [ih, insertByName_length]
      simp only [List.length_cons]
      omega
  simpa using aux l []

lemma sortByName_ne_nil {β : Type} (l : List (String × β)) (h : l ≠ []) :
    sortByName l ≠ [] := by
  intro hs
  have := sortByName_length l
  rw [hs] at this
  exact h (List.eq_nil_of_length_eq_zero this.symm)

lemma synteny_walkState_GInv (qd : Querydict) (bd : Blastdict) (rd : Refdict)
    (m ms md : Int) : GInv (synteny_walkState qd bd rd m ms md) :=
  foldScaffolds_GInv rd bd m ms md (sortByName qd) initGlobal (by simp [GInv, initGlobal])

lemma synteny_walkState_counts_ne (qd : Querydict) (bd : Blastdict) (rd : Refdict)
    (m ms md : Int) (h : qd ≠ []) :
    (synteny_walkState qd bd rd m ms md).scaffoldgenecounts ≠ [] :=
  foldScaffolds_counts_ne rd bd m ms md (sortByName qd) initGlobal (sortByName_ne_nil qd h)

/-- Claim C6, counterexample.  On an empty query index the run
finalizes zero blocks but does not take the no-synteny exit: line 337
(`max(list(scaffoldgenecounts.keys()))`) raises `ValueError` before
the zero-block check at line 340 is reached, so the termination is an
uncaught exception rather than the identifier-format diagnostic. -/
theorem claim_C6_counterexample :
    synteny_walk [] [] [] 3 5 30000 = Except.error emptyMaxMsg ∧
    (synteny_walkState [] [] [] 3 5 30000).blocks = [] ∧
    emptyMaxMsg ≠ noSyntenyMsg := by decide

/-- Claim C6 as amended: for every run whose query index is nonempty,
the run takes the fatal no-synteny exit (the diagnostic pointing at
identifier-format parameters) exactly when zero blocks were finalized;
with at least one block the exit is not taken.  (On an empty query
index the run instead dies with a `ValueError` from the statistics
line.) -/
theorem claim_C6 (qd : Querydict) (bd : Blastdict) (rd : Refdict)
    (m ms md : Int) (h : qd ≠ []) :
    (synteny_walk qd bd rd m ms md = Except.error noSyntenyMsg)
      ↔ (synteny_walkState qd bd rd m ms md).blocks = [] := by
  have hc := synteny_walkState_counts_ne qd bd rd m ms md h
  have hg := synteny_walkState_GInv qd bd rd m ms md
  simp only [synteny_walk]
  rw [if_neg hc]
  by_cases hb : (synteny_walkState qd bd rd m ms md).blocklengths = []
  · rw [if_pos hb]
    exact iff_of_true rfl (hg.mp hb)
  · rw [if_neg hb]
    constructor
    · intro hok
      exact absurd hok (fun hh => Except.noConfusion hh)
    · intro hblocks
      exact absurd (hg.mpr hblocks) hb

/-- Witness for claim C6's amended theorem: a nonempty query index with
no hits finds zero blocks and takes the no-synteny exit. -/
theorem claim_C6_witness :
    C6wq ≠ [] ∧ synteny_walk C6wq [] [] 3 5 30000 = Except.error noSyntenyMsg :=
  ⟨by decide, (claim_C6 C6wq [] [] 3 5 30000 (by decide)).mpr (by decide)⟩

/-- Claim C7, counterexample.  With `maxSpan = 0` the walk from anchor
`g1` cannot visit even the next gene (`walksteps > 0` fails
immediately), so the fragment contains one pair, not the claimed
length-2 fragment. -/
theorem claim_C7_counterexample :
    (walkGenes C7b C7r "A" "r1" 30000 0 C7rest
        ⟨0, (100, 150), (1000, 1100), [], [("g1", "r1")]⟩).syntenylist
      = [("g1", "r1")] := by decide

/-- Claim C7 as amended: in scenario B (`minBlock = 3`, `maxSpan = 0`,
generous `maxDistance`, `g3` without homolog) every chain consists of
the anchor pair alone, all fragments are discarded, zero blocks are
found, and the run takes the no-synteny fatal exit. -/
theorem claim_C7 :
    synteny_walk C7q C7b C7r 3 0 30000 = Except.error noSyntenyMsg ∧
    (synteny_walkState C7q C7b C7r 3 0 30000).blocks = [] ∧
    (synteny_walkState C7q C7b C7r 3 0 30000).blocklengths = [] := by decide


/-! ### Lemmas for `parse_gtf` exon inference (claim C8) -/

lemma alookup_assocSet {β : Type} (l : List (String × β)) (k : String) (v : β) (g : String) :
    alookup (assocSet l k v) g = if g = k then some v else alookup l g := by
  induction l with
  | nil => simp [assocSet, alookup]
  | cons e t ih =>
    obtain ⟨k', v'⟩ := e
    by_cases h : k' = k
    · subst h
      by_cases hg : g = k' <;> simp [assocSet, alookup, hg]
    · by_cases hg : g = k'
      · have hgk : g ≠ k := fun hh => h (hg ▸ hh)
        simp [assocSet, alookup, h, hg, hgk]
      · simp [assocSet, alookup, h, hg, ih]

lemma alookup_assocAppend {β : Type} (l : List (String × List β)) (k : String) (x : β)
    (g : String) :
    alookup (assocAppend l k x) g
      = if g = k then some ((alookup l k).getD [] ++ [x]) else alookup l g := by
  induction l with
  | nil => simp [assocAppend, alookup]
  | cons e t ih =>
    obtain ⟨k', v'⟩ := e
    by_cases h : k' = k
    · subst h
      by_cases hg : g = k' <;> simp [assocAppend, alookup, hg]
    · have hk : ¬k = k' := fun hh => h hh.symm
      by_cases hg : g = k'
      · have hgk : g ≠ k := fun hh => h (hg ▸ hh)
        simp [assocAppend, alookup, h, hg, hgk, hk]
      · simp [assocAppend, alookup, h, hg, hk, ih]

lemma oappend_single {α : Type} (o : Option (List α)) (x : α) :
    oappend o [x] = some ((o.getD []) ++ [x]) := by
  cases o <;> simp [oappend]

lemma oappend_cons {α : Type} (o : Option (List α)) (x : α) (l : List α) :
    oappend o (x :: l) = oappend (oappend o [x]) l := by
  cases o <;> cases l <;> simp [oappend]

lemma getLast?_cons' {α : Type} (a : α) (l : List α) :
    (a :: l).getLast? = some (l.getLastD a) := by
  induction l generalizing a with
  | nil => rfl
  | cons b t ih => rw [List.getLastD_cons, ← ih b, List.getLast?_cons_cons]

lemma getLast?_of_ne_nil {α : Type} (l : List α) (j : α) (h : l ≠ []) :
    l.getLast? = some (l.getLastD j) := by
  cases l with
  | nil => exact absurd rfl h
  | cons a t => rw [getLast?_cons', List.getLastD_cons]

lemma geneFeature_not_exon (r : GtfRow) (h : geneFeature r = true) :
    (r.feature == "exon") = false := by
  by_cases he : r.feature = "exon"
  · rw [geneFeature, he] at h
    exact absurd h (by decide)
  · simpa using he

/-- The four branch shapes of one loop step, as equations on the parts
of the state the claim-C8 lemmas track. -/
lemma step_excluded (exclude : String → Bool) (delim : Option String)
    (st : RefGeneState) (r : GtfRow) (hx : exclude r.scaffold = true) :
    parse_gtf_ref_step true exclude delim st r = st := by
  simp [parse_gtf_ref_step, hx]

lemma step_gene_ex (exclude : String → Bool) (delim : Option String)
    (st : RefGeneState) (r : GtfRow) (hx : ¬exclude r.scaffold = true)
    (hgf : geneFeature r = true) :
    (parse_gtf_ref_step true exclude delim st r).ex = st.ex := by
  simp [parse_gtf_ref_step, hx, hgf]

lemma step_exon (exclude : String → Bool) (delim : Option String)
    (st : RefGeneState) (r : GtfRow) (hx : ¬exclude r.scaffold = true)
    (hgf : ¬geneFeature r = true) (he : (r.feature == "exon") = true) :
    (parse_gtf_ref_step true exclude delim st r).ex =
      ⟨assocSet st.ex.nametoscaffold r.geneid r.scaffold,
       assocSet st.ex.nametostrand r.geneid r.strand,
       assocAppend st.ex.exonboundaries r.geneid (r.start, r.endp)⟩ := by
  simp [parse_gtf_ref_step, hx, hgf, he]

lemma step_other (exclude : String → Bool) (delim : Option String)
    (st : RefGeneState) (r : GtfRow) (hx : ¬exclude r.scaffold = true)
    (hgf : ¬geneFeature r = true) (he : ¬(r.feature == "exon") = true) :
    parse_gtf_ref_step true exclude delim st r = st := by
  simp [parse_gtf_ref_step, hx, hgf, he]

lemma exonRows_cons_pos (exclude : String → Bool) (g : String) (r : GtfRow)
    (rest : List GtfRow) (hm : exonMatch exclude g r = true) :
    exonRows exclude g (r :: rest) = r :: exonRows exclude g rest := by
  simp [exonRows, List.filter_cons, hm]

lemma exonRows_cons_neg (exclude : String → Bool) (g : String) (r : GtfRow)
    (rest : List GtfRow) (hm : exonMatch exclude g r = false) :
    exonRows exclude g (r :: rest) = exonRows exclude g rest := by
  simp [exonRows, List.filter_cons, hm]

/-- After the row loop, the collected exon-bounds entry of a gene is
its initial entry extended by the bounds of the matching rows, in file
order. -/
lemma fold_exonboundaries (exclude : String → Bool) (delim : Option String) (g : String) :
    ∀ (rows : List GtfRow) (st : RefGeneState),
    alookup ((rows.foldl (parse_gtf_ref_step true exclude delim) st).ex.exonboundaries) g
      = oappend (alookup st.ex.exonboundaries g)
          ((exonRows exclude g rows).map (fun r => (r.start, r.endp))) := by
  intro rows
  induction rows with
  | nil => intro st; simp [exonRows, oappend]
  | cons r rest ih =>
    intro st
    rw [List.foldl_cons, ih]
    by_cases hx : exclude r.scaffold = true
    · have hm : exonMatch exclude g r = false := by simp [exonMatch, hx]
      rw [step_excluded exclude delim st r hx, exonRows_cons_neg exclude g r rest hm]
    · by_cases hgf : geneFeature r = true
      · have hm : exonMatch exclude g r = false := by
          simp [exonMatch, geneFeature_not_exon r hgf]
        rw [step_gene_ex exclude delim st r hx hgf, exonRows_cons_neg exclude g r rest hm]
      · by_cases he : (r.feature == "exon") = true
        · rw [step_exon exclude delim st r hx hgf he]
          by_cases hid : r.geneid = g
          · have hm : exonMatch exclude g r = true := by simp [exonMatch, hx, he, hid]
            rw [exonRows_cons_pos exclude g r rest hm, List.map_cons]
            show oappend (alookup (assocAppend st.ex.exonboundaries r.geneid
              (r.start, r.endp)) g) _ = _
            rw [alookup_assocAppend, if_pos hid.symm, hid, oappend_cons, oappend_single]
          · have hm : exonMatch exclude g r = false := by simp [exonMatch, hid]
            rw [exonRows_cons_neg exclude g r rest hm]
            show oappend (alookup (assocAppend st.ex.exonboundaries r.geneid
              (r.start, r.endp)) g) _ = _
            rw [alookup_assocAppend, if_neg (fun hh => hid hh.symm)]
        · have hm : exonMatch exclude g r = false := by simp [exonMatch, he]
          rw [step_other exclude delim st r hx hgf he, exonRows_cons_neg exclude g r rest hm]

/-- After the row loop, a gene's last-write strand entry is the strand
of the last matching exon row, with the initial entry as fallback. -/
lemma fold_nametostrand (exclude : String → Bool) (delim : Option String) (g : String) :
    ∀ (rows : List GtfRow) (st : RefGeneState),
    alookup ((rows.foldl (parse_gtf_ref_step true exclude delim) st).ex.nametostrand) g
      = ofallback (((exonRows exclude g rows).getLast?).map (fun r => r.strand))
          (alookup st.ex.nametostrand g) := by
  intro rows
  induction rows with
  | nil => intro st; simp [exonRows, ofallback]
  | cons r rest ih =>
    intro st
    rw [List.foldl_cons, ih]
    by_cases hx : exclude r.scaffold = true
    · have hm : exonMatch exclude g r = false := by simp [exonMatch, hx]
      rw [step_excluded exclude delim st r hx, exonRows_cons_neg exclude g r rest hm]
    · by_cases hgf : geneFeature r = true
      · have hm : exonMatch exclude g r = false := by
          simp [exonMatch, geneFeature_not_exon r hgf]
        rw [step_gene_ex exclude delim st r hx hgf, exonRows_cons_neg exclude g r rest hm]
      · by_cases he : (r.feature == "exon") = true
        · rw [step_exon exclude delim st r hx hgf he]
          by_cases hid : r.geneid = g
          · have hm : exonMatch exclude g r = true := by simp [exonMatch, hx, he, hid]
            rw [exonRows_cons_pos exclude g r rest hm]
            show ofallback _ (alookup (assocSet st.ex.nametostrand r.geneid r.strand) g) = _
            rw [alookup_assocSet, if_pos hid.symm]
            cases hl : exonRows exclude g rest with
            | nil => rw [getLast?_cons']; simp [ofallback]
            | cons a t =>
              rw [List.getLast?_cons_cons, ← hl]
              cases hfr : (exonRows exclude g rest).getLast? with
              | none =>
                rw [hl, getLast?_cons'] at hfr
                exact absurd hfr (by simp)
              | some x => simp [ofallback]
          · have hm : exonMatch exclude g r = false := by simp [exonMatch, hid]
            rw [exonRows_cons_neg exclude g r rest hm]
            show ofallback _ (alookup (assocSet st.ex.nametostrand r.geneid r.strand) g) = _
            rw [alookup_assocSet, if_neg (fun hh => hid hh.symm)]
        · have hm : exonMatch exclude g r = false := by simp [exonMatch, he]
          rw [step_other exclude delim st r hx hgf he, exonRows_cons_neg exclude g r rest hm]

/-- Same as `fold_nametostrand` for the last-write scaffold map. -/
lemma fold_nametoscaffold (exclude : String → Bool) (delim : Option String) (g : String) :
    ∀ (rows : List GtfRow) (st : RefGeneState),
    alookup ((rows.foldl (parse_gtf_ref_step true exclude delim) st).ex.nametoscaffold) g
      = ofallback (((exonRows exclude g rows).getLast?).map (fun r => r.scaffold))
          (alookup st.ex.nametoscaffold g) := by
  intro rows
  induction rows with
  | nil => intro st; simp [exonRows, ofallback]
  | cons r rest ih =>
    intro st
    rw [List.foldl_cons, ih]
    by_cases hx : exclude r.scaffold = true
    · have hm : exonMatch exclude g r = false := by simp [exonMatch, hx]
      rw [step_excluded exclude delim st r hx, exonRows_cons_neg exclude g r rest hm]
    · by_cases hgf : geneFeature r = true
      · have hm : exonMatch exclude g r = false := by
          simp [exonMatch, geneFeature_not_exon r hgf]
        rw [step_gene_ex exclude delim st r hx hgf, exonRows_cons_neg exclude g r rest hm]
      · by_cases he : (r.feature == "exon") = true
        · rw [step_exon exclude delim st r hx hgf he]
          by_cases hid : r.geneid = g
          · have hm : exonMatch exclude g r = true := by simp [exonMatch, hx, he, hid]
            rw [exonRows_cons_pos exclude g r rest hm]
            show ofallback _ (alookup (assocSet st.ex.nametoscaffold r.geneid r.scaffold) g) = _
            rw [alookup_assocSet, if_pos hid.symm]
            cases hl : exonRows exclude g rest with
            | nil => rw [getLast?_cons']; simp [ofallback]
            | cons a t =>
              rw [List.getLast?_cons_cons, ← hl]
              cases hfr : (exonRows exclude g rest).getLast? with
              | none =>
                rw [hl, getLast?_cons'] at hfr
                exact absurd hfr (by simp)
              | some x => simp [ofallback]
          · have hm : exonMatch exclude g r = false := by simp [exonMatch, hid]
            rw [exonRows_cons_neg exclude g r rest hm]
            show ofallback _ (alookup (assocSet st.ex.nametoscaffold r.geneid r.scaffold) g) = _
            rw [alookup_assocSet, if_neg (fun hh => hid hh.symm)]
        · have hm : exonMatch exclude g r = false := by simp [exonMatch, he]
          rw [step_other exclude delim st r hx hgf he, exonRows_cons_neg exclude g r rest hm]

/-- When no row writes a gene-type record, the gene dictionary is
untouched by the row loop. -/
lemma fold_genes_nil (exclude : String → Bool) (delim : Option String) :
    ∀ (rows : List GtfRow) (st : RefGeneState),
    (∀ r ∈ rows, (!(exclude r.scaffold) && geneFeature r) = false) →
    (rows.foldl (parse_gtf_ref_step true exclude delim) st).genes = st.genes := by
  intro rows
  induction rows with
  | nil => intro st _; rfl
  | cons r rest ih =>
    intro st h
    rw [List.foldl_cons, ih _ (fun q hq => h q (List.mem_cons_of_mem _ hq))]
    have hr := h r (List.mem_cons_self _ _)
    by_cases hx : exclude r.scaffold = true
    · rw [step_excluded exclude delim st r hx]
    · have hgf : geneFeature r = false := by
        rcases Bool.eq_false_or_eq_true (geneFeature r) with h' | h'
        · rw [h'] at hr
          simp [hx] at hr
        · exact h'
      by_cases he : (r.feature == "exon") = true
      · have hgenes : (parse_gtf_ref_step true exclude delim st r).genes = st.genes := by
          simp [parse_gtf_ref_step, hx, hgf, he]
        rw [hgenes]
      · rw [step_other exclude delim st r hx (by simp [hgf]) he]

lemma alookup_map {β γ : Type} (f : String → β → γ) :
    ∀ (l : List (String × β)) (g : String),
    alookup (l.map (fun e => (e.1, f e.1 e.2))) g = (alookup l g).map (f g) := by
  intro l
  induction l with
  | nil => intro g; rfl
  | cons e t ih =>
    intro g
    obtain ⟨k, v⟩ := e
    by_cases hg : g = k
    · subst hg
      simp [alookup]
    · simp [alookup, hg, ih]

/-- Claim C8: when gene extents are inferred from exon records
(reference mode, `exonstogenes` on, no retained gene-type record, and
at least one exon row for identifier `g`), the inferred gene's start is
the minimum exon start and its end the maximum exon end over all exon
records sharing `g`, and its strand (and scaffold) are those of the
last such record in file order. -/
theorem claim_C8 (rows : List GtfRow) (exclude : String → Bool) (delim : Option String)
    (g : String)
    (hnog : ∀ r ∈ rows, (!(exclude r.scaffold) && geneFeature r) = false)
    (hin : exonRows exclude g rows ≠ []) :
    alookup (parse_gtf_ref rows true exclude delim) g
      = some ⟨((exonRows exclude g rows).getLastD ⟨"", "", 0, 0, "", ""⟩).scaffold,
              minStarts ((exonRows exclude g rows).map (fun r => (r.start, r.endp))),
              maxEnds ((exonRows exclude g rows).map (fun r => (r.start, r.endp))),
              ((exonRows exclude g rows).getLastD ⟨"", "", 0, 0, "", ""⟩).strand⟩ := by
  have hg := fold_genes_nil exclude delim rows ⟨[], ⟨[], [], []⟩⟩ hnog
  have hb := fold_exonboundaries exclude delim g rows ⟨[], ⟨[], [], []⟩⟩
  have hs := fold_nametostrand exclude delim g rows ⟨[], ⟨[], [], []⟩⟩
  have hsc := fold_nametoscaffold exclude delim g rows ⟨[], ⟨[], [], []⟩⟩
  have hlast := getLast?_of_ne_nil (exonRows exclude g rows) ⟨"", "", 0, 0, "", ""⟩ hin
  simp only [parse_gtf_ref]
  rw [hg]
  simp only [List.length_nil, gt_iff_lt, lt_irrefl, if_false]
  rw [alookup_map (fun k v => (⟨(alookup ((rows.foldl (parse_gtf_ref_step true exclude delim)
      ⟨[], ⟨[], [], []⟩⟩).ex.nametoscaffold) k).getD "", minStarts v, maxEnds v,
      (alookup ((rows.foldl (parse_gtf_ref_step true exclude delim)
      ⟨[], ⟨[], [], []⟩⟩).ex.nametostrand) k).getD ""⟩ : Refgene))]
  rw [hb]
  have hmne : (exonRows exclude g rows).map (fun r => (r.start, r.endp)) ≠ [] := by
    intro hh
    exact hin (List.map_eq_nil_iff.mp hh)
  cases hml : (exonRows exclude g rows).map (fun r => (r.start, r.endp)) with
  | nil => exact absurd hml hmne
  | cons mb mt =>
    simp only [alookup, oappend, Option.map_some']
    rw [hs, hsc, hlast]
    simp [ofallback, ← hml]


/-- Witness for claim C8: on two exon rows of gene `gA` the inferred
model takes the minimum start (50), the maximum end (300) and the
strand and scaffold of the last row (`-`, `sc2`). -/
theorem claim_C8_witness :
    (∀ r ∈ C8rows, (!(C8excl r.scaffold) && geneFeature r) = false) ∧
    exonRows C8excl "gA" C8rows ≠ [] ∧
    alookup (parse_gtf_ref C8rows true C8excl none) "gA" = some ⟨"sc2", 50, 300, "-"⟩ :=
  ⟨by decide, by decide,
    (claim_C8 C8rows C8excl none "gA" (by decide) (by decide)).trans (by decide)⟩

/-! ### Claims C9 and C10 -/

/-- Claim C9, counterexample.  The switched-mode binding of
`querydict` is not an `ok` 2-tuple that later breaks inside
`synteny_walk`: already the `parse_gtf` call on line 394 (three
positional arguments against four required parameters) raises a
`TypeError`, so execution never reaches the tuple construction, the
binding, or `synteny_walk`. -/
theorem claim_C9_counterexample :
    main_switched_querydict [] false (fun _ => false) none = Except.error typeErrorMsg := by
  decide

/-- Claim C9 as amended: for every invocation of `main` with the
switch-query flag, the evaluation of line 394 raises `TypeError`
(missing required positional argument `delimiter`) before `querydict`
is bound; `synteny_walk` is never called and no block is emitted in
switched mode. -/
theorem claim_C9 (dbRows : List GtfRow) (noGenes : Bool) (exclude : String → Bool)
    (dbDelim : Option String) :
    main_switched_querydict dbRows noGenes exclude dbDelim = Except.error typeErrorMsg := rfl

lemma alookup_assocSet2 {β : Type} (outer : List (String × List (String × β)))
    (q s : String) (b : β) (g : String) :
    alookup (assocSet2 outer q s b) g
      = if g = q then some (assocSet ((alookup outer q).getD []) s b)
        else alookup outer g := by
  induction outer with
  | nil => simp [assocSet2, alookup, assocSet]
  | cons e t ih =>
    obtain ⟨k, inner⟩ := e
    by_cases h : k = q
    · subst h
      by_cases hg : g = k <;> simp [assocSet2, alookup, hg]
    · have hk : ¬q = k := fun hh => h hh.symm
      by_cases hg : g = k
      · have hgq : g ≠ q := fun hh => h (hg ▸ hh)
        simp [assocSet2, alookup, h, hg, hgq, hk]
      · simp [assocSet2, alookup, h, hg, hk, ih]

lemma assocSet_length_present {β : Type} (l : List (String × β)) (k : String) (v : β)
    (h : (alookup l k).isSome = true) : (assocSet l k v).length = l.length := by
  induction l with
  | nil => simp [alookup] at h
  | cons e t ih =>
    obtain ⟨k', v'⟩ := e
    by_cases hk : k' = k
    · simp [assocSet, hk]
    · have hk' : ¬k = k' := fun hh => hk hh.symm
      rw [alookup, if_neg hk'] at h
      simp [assocSet, hk, ih h]

lemma alookup_assocBumpStr (l : List (String × Nat)) (k g : String) :
    alookup (assocBumpStr l k) g
      = if g = k then some ((alookup l k).getD 0 + 1) else alookup l g := by
  induction l with
  | nil => simp [assocBumpStr, alookup]
  | cons e t ih =>
    obtain ⟨k', v'⟩ := e
    by_cases h : k' = k
    · subst h
      by_cases hg : g = k' <;> simp [assocBumpStr, alookup, hg]
    · have hk : ¬k = k' := fun hh => h hh.symm
      by_cases hg : g = k'
      · have hgk : g ≠ k := fun hh => h (hg ▸ hh)
        simp [assocBumpStr, alookup, h, hg, hgk, hk]
      · simp [assocBumpStr, alookup, h, hg, hk, ih]

/-- Claim C10: (general part) processing a retained hit line whose
trimmed (query, subject) pair is already stored overwrites the stored
bitscore with the later line's, stores no new candidate (the candidate
count for the query is unchanged), and still increments the query's
hit counter.  (Possibility part) Hence on `C10rows` with `maxhits = 2`
the final map stores one candidate for `q` while two hits were counted
against its cap, and the distinct later hit `(q, s2)` was dropped even
though fewer than `maxhits` candidates are stored. -/
theorem claim_C10 :
    (∀ (cutoff : Int) (qdl rdl : String) (sw : Bool) (maxhits : Nat) (st : BlastState)
        (row : BlastRow) (q s : String),
      trimIds sw qdl rdl row = (q, s) →
      ¬row.evalue > cutoff →
      (alookup st.query_hits q).getD 0 < maxhits →
      (alookup ((alookup st.query_to_sub_dict q).getD []) s).isSome = true →
      (((alookup (parse_tabular_blast_step cutoff qdl rdl sw maxhits st
            row).query_to_sub_dict q).getD []).length
          = ((alookup st.query_to_sub_dict q).getD []).length ∧
        alookup ((alookup (parse_tabular_blast_step cutoff qdl rdl sw maxhits st
            row).query_to_sub_dict q).getD []) s = some row.bitscore ∧
        (alookup (parse_tabular_blast_step cutoff qdl rdl sw maxhits st
            row).query_hits q).getD 0 = (alookup st.query_hits q).getD 0 + 1))
    ∧ ((alookup (parse_tabular_blast C10rows 1 "|" "|" false 2).query_to_sub_dict "q").getD []
          = [("s", 20)]
       ∧ alookup (parse_tabular_blast C10rows 1 "|" "|" false 2).query_hits "q" = some 2
       ∧ alookup ((alookup (parse_tabular_blast C10rows 1 "|" "|" false
            2).query_to_sub_dict "q").getD []) "s2" = none) := by
  constructor
  · intro cutoff qdl rdl sw maxhits st row q s htrim h2 h3 h4
    have hq : (trimIds sw qdl rdl row).1 = q := by rw [htrim]
    have hs : (trimIds sw qdl rdl row).2 = s := by rw [htrim]
    have hcap : ¬((alookup st.query_hits (trimIds sw qdl rdl row).1).getD 0 ≥ maxhits) := by
      rw [hq]; omega
    unfold parse_tabular_blast_step
    rw [if_neg h2, if_neg hcap, hq, hs]
    refine ⟨?_, ?_, ?_⟩
    · show ((alookup (assocSet2 st.query_to_sub_dict q s row.bitscore) q).getD []).length
        = ((alookup st.query_to_sub_dict q).getD []).length
      rw [alookup_assocSet2, if_pos rfl]
      simp only [Option.getD_some]
      exact assocSet_length_present _ s row.bitscore h4
    · show alookup ((alookup (assocSet2 st.query_to_sub_dict q s row.bitscore) q).getD []) s
        = some row.bitscore
      rw [alookup_assocSet2, if_pos rfl]
      simp only [Option.getD_some]
      rw [alookup_assocSet, if_pos rfl]
    · show (alookup (assocBumpStr st.query_hits q) q).getD 0
        = (alookup st.query_hits q).getD 0 + 1
      rw [alookup_assocBumpStr, if_pos rfl]
      simp only [Option.getD_some]
  · decide

/-- Witness for claim C10's general part at the state after the first
`C10` row: the second row overwrites the bitscore (10 becomes 20),
stores no new candidate, and raises the counted hits to 2. -/
theorem claim_C10_witness :
    trimIds false "|" "|" C10row = ("q", "s") ∧
    (((alookup (parse_tabular_blast_step 1 "|" "|" false 2 C10st C10row).query_to_sub_dict
        "q").getD []).length = ((alookup C10st.query_to_sub_dict "q").getD []).length ∧
      alookup ((alookup (parse_tabular_blast_step 1 "|" "|" false 2 C10st
        C10row).query_to_sub_dict "q").getD []) "s" = some C10row.bitscore ∧
      (alookup (parse_tabular_blast_step 1 "|" "|" false 2 C10st C10row).query_hits
        "q").getD 0 = (alookup C10st.query_hits "q").getD 0 + 1) :=
  ⟨by decide,
    claim_C10.1 1 "|" "|" false 2 C10st C10row "q" "s" (by decide) (by decide)
      (by decide) (by decide)⟩

end Microsynteny
